import Mathlib

/-!
Verification development for the ICPilot deployment orchestrator
(`src/deployer.ts`).  The definitions below are a shallow embedding of the
deployment code: pure string manipulation is translated directly, and each
external-process invocation (the `dfx` / `moc` subprocess calls, the port
probe, the code-generation service) is an oracle input to the embedded
function, so that every control-flow decision of the source is represented
faithfully.  Machine effects (file writes, sleeps, subprocess spawns) are
recorded as explicit events in a trace.
-/

namespace ICPilot

/-! ### JavaScript string primitives

The deployer manipulates JavaScript strings (`includes`, `trim`,
`startsWith`, `indexOf`, `slice`, regular-expression tests).  These are
modelled over `List Char`. -/

/-- JavaScript word character (the `\w` / `\b` class): `[A-Za-z0-9_]`. -/
def isWordChar (c : Char) : Bool :=
  (('a' ≤ c && c ≤ 'z') || ('A' ≤ c && c ≤ 'Z') || ('0' ≤ c && c ≤ '9') || c = '_')

/-- JavaScript whitespace (the `\s` class and `trim`), ASCII part:
space, tab, newline, carriage return, vertical tab, form feed. -/
def isJsSpace (c : Char) : Bool :=
  c = ' ' || c = '\t' || c = '\n' || c = '\r' || c = '\x0b' || c = '\x0c'

/-- Substring test over character lists, the model of `String.includes`. -/
def containsSub (pat : List Char) : List Char → Bool
  | [] => pat.isEmpty
  | c :: cs => pat.isPrefixOf (c :: cs) || containsSub pat cs

/-- JavaScript `code.includes(pat)`. -/
def jsIncludes (code pat : String) : Bool :=
  containsSub pat.data code.data

/-- JavaScript `s.trim()` on a character list. -/
def jsTrimList (s : List Char) : List Char :=
  ((s.dropWhile isJsSpace).reverse.dropWhile isJsSpace).reverse

/-- JavaScript `s.trim()`. -/
def jsTrim (s : String) : String :=
  ⟨jsTrimList s.data⟩

/-- First index at which `pat` occurs in the list (JavaScript `indexOf`,
with `none` for `-1`). -/
def findSub (pat : List Char) : List Char → Option Nat
  | [] => if pat.isEmpty then some 0 else none
  | c :: cs =>
    if pat.isPrefixOf (c :: cs) then some 0
    else (findSub pat cs).map (· + 1)

/-- JavaScript `s.indexOf(ch, start)`: first occurrence of the character at
index `start` or later. -/
def findCharFrom (c : Char) (s : List Char) (start : Nat) : Option Nat :=
  (findSub [c] (s.drop start)).map (start + ·)

/-! ### `preprocessMotokoCode` (deployer.ts lines 16–62)

The import-repair step.  For each of fifteen library module names it tests
the regular expression `\bName\b(?!\s*=)(?!.*"mo:base\/Name")` against the
artifact and, when the test succeeds and the code does not already contain
`import Name`, prepends (or splices after the opening `actor` line) the
missing import statement. -/

/-- The `commonModules` names, in source order. -/
def moduleNames : List String :=
  ["Nat", "Text", "Array", "Buffer", "Debug", "Error", "Hash", "HashMap",
   "Iter", "List", "Option", "Principal", "Result", "Time", "Trie"]

/-- The import statement inserted for a module name. -/
def importLine (m : String) : String :=
  "import " ++ m ++ " \"mo:base/" ++ m ++ "\";"

/-- The literal `"mo:base/Name"` (with the surrounding double quotes) that
the second negative lookahead searches for. -/
def moBaseLit (m : List Char) : List Char :=
  '"' :: ((String.data ("mo:base/")) ++ m ++ ['"'])

/-- Does the text begin with `\s*=` (the first negative lookahead)?  In
JavaScript `\s` also crosses newlines. -/
def startsSpaceStarEq : List Char → Bool
  | [] => false
  | c :: cs => if c = '=' then true else if isJsSpace c then startsSpaceStarEq cs else false

/-- Does the remainder of the current line (dot does not match newline)
contain `pat`?  Models the `(?!.*"mo:base\/Name")` lookahead body. -/
def lineRestContains (pat tail : List Char) : Bool :=
  containsSub pat (tail.takeWhile (fun c => c ≠ '\n'))

/-- Does `\bm\b(?!\s*=)(?!.*"mo:base\/m")` match at the head of `s`, where
`prev` is the character immediately before `s` (if any)?  All module names
consist of word characters, so the word boundaries reduce to the flanking
characters not being word characters. -/
def matchHere (m : List Char) (prev : Option Char) (s : List Char) : Bool :=
  m.isPrefixOf s
    && (match prev with
        | none => true
        | some c => !isWordChar c)
    && (match s.drop m.length with
        | [] => true
        | c :: _ => !isWordChar c)
    && !startsSpaceStarEq (s.drop m.length)
    && !lineRestContains (moBaseLit m) (s.drop m.length)

/-- Scan for a match of the module pattern anywhere in the text. -/
def patternTestAux (m : List Char) (prev : Option Char) : List Char → Bool
  | [] => false
  | c :: cs => matchHere m prev (c :: cs) || patternTestAux m (some c) cs

/-- `module.pattern.test(code)`. -/
def patternTest (m code : String) : Bool :=
  patternTestAux m.data none code.data

/-- The module names for which an import is pushed on one pass:
`pattern.test(code) && !code.includes('import ' + name)`, in source order. -/
def insertedNames (code : String) : List String :=
  moduleNames.filter (fun m => patternTest m code && !jsIncludes code ("import " ++ m))

/-- `importStatements` accumulated by the loop. -/
def importStatements (code : String) : List String :=
  (insertedNames code).map importLine

/-- JavaScript `array.join('\n')`. -/
def joinNl : List String → String
  | [] => ""
  | [s] => s
  | s :: rest => s ++ "\n" ++ joinNl rest

/-- `code.indexOf('\n', code.indexOf('actor'))`: the end of the line holding
the first `actor` occurrence (JavaScript clamps a `-1` start to `0`). -/
def actorLineEnd (code : String) : Option Nat :=
  match findSub (String.data ("actor")) code.data with
  | none => findCharFrom '\n' code.data 0
  | some i => findCharFrom '\n' code.data i

/-- `preprocessMotokoCode` (deployer.ts lines 16–62). -/
def preprocessMotokoCode (code : String) : String :=
  let imps := importStatements code
  if imps.isEmpty then code
  else
    let joined := joinNl imps
    if jsIncludes code ("actor") && (String.data ("actor")).isPrefixOf (jsTrimList code.data) then
      match actorLineEnd code with
      | some k =>
        ⟨code.data.take (k + 1)⟩ ++ joined ++ "\n" ++ (⟨code.data.drop (k + 1)⟩ : String)
      | none => joined ++ "\n\n" ++ code
    else joined ++ "\n\n" ++ code

/-! ### Project staging (deployer.ts lines 206–220 and 364–388)

`deployCanister` copies the generated source into
`ic_project/src/{name}/main.mo` (`fs.copyFile`, overwrite semantics) and
`createDfxConfig` rewrites `ic_project/dfx.json` in full with
`JSON.stringify(config, null, 2)`.  The staged files are modelled as a
record of the two file contents. -/

/-- The exact `dfx.json` text written by `createDfxConfig`
(`JSON.stringify` of the configuration object with two-space indent). -/
def dfxConfigContent (canisterName : String) : String :=
  "\x7b\n  \"version\": 1,\n  \"canisters\": \x7b\n    \"" ++ canisterName ++
  "\": \x7b\n      \"main\": \"src/" ++ canisterName ++
  "/main.mo\",\n      \"type\": \"motoko\"\n    \x7d\n  \x7d,\n  \"defaults\": \x7b\n    \"build\": \x7b\n      \"args\": \"\",\n      \"packtool\": \"\"\n    \x7d\n  \x7d,\n  \"networks\": \x7b\n    \"local\": \x7b\n      \"bind\": \"127.0.0.1:4943\",\n      \"type\": \"ephemeral\"\n    \x7d\n  \x7d\n\x7d"

/-- The two files owned by the staging step; `none` means not present. -/
structure StagedFiles where
  mainMo : Option String
  dfxJson : Option String
deriving DecidableEq, Repr

/-- One staging run: copy the source artifact over `main.mo` and rewrite
`dfx.json` in full (both writes overwrite whatever was there). -/
def stageProject (fs : StagedFiles) (canisterName source : String) : StagedFiles :=
  { fs with mainMo := some source, dfxJson := some (dfxConfigContent canisterName) }

/-! ### Port manager (deployer.ts lines 397–443)

`isPortFree` probes by binding a listener.  When the probe reports the
port busy, the code runs `lsof -i :4943 -t` (an oracle: `none` models the
command exiting non-zero, i.e. no owner found), kills the pid if the
trimmed stdout is non-empty, and sleeps 2000 ms.  Any error inside that
block is mapped to the single "could not be freed" failure.  There is no
second probe in the source. -/

/-- Oracle inputs for one `ensurePortFree` run. -/
structure PortEnv where
  /-- Result of the bind probe `isPortFree(4943)`. -/
  portFree : Bool
  /-- `lsof -i :4943 -t` stdout, `none` when the command throws. -/
  lsofOut : Option String
  /-- Does `kill -9 pid` succeed? -/
  killOk : Bool
deriving Repr

/-- Externally visible actions of the port-freeing block. -/
inductive PortAction where
  | probe
  | lookupPid
  | killPid (pid : String)
  | settleDelay (ms : Nat)
deriving DecidableEq, Repr

/-- Failure values of the port manager. -/
inductive PortErr where
  /-- `Port 4943 is in use and could not be freed. Please stop the process manually.` -/
  | portBusy
deriving DecidableEq, Repr

/-- The port-freeing block of `startDfxReplica` (lines 428–443). -/
def ensurePortFree (env : PortEnv) : List PortAction × Except PortErr Unit :=
  if env.portFree then ([.probe], .ok ())
  else
    match env.lsofOut with
    | none => ([.probe, .lookupPid], .error .portBusy)
    | some out =>
      let pid := jsTrim out
      if pid = "" then ([.probe, .lookupPid], .ok ())
      else if env.killOk then
        ([.probe, .lookupPid, .killPid pid, .settleDelay 2000], .ok ())
      else ([.probe, .lookupPid, .killPid pid], .error .portBusy)

/-! ### Replica liveness polling (deployer.ts lines 479–494)

After spawning `dfx start`, the code pings at most `maxAttempts = 24`
times, sleeping 5000 ms after each failed ping, and on exhaustion throws
an error that embeds the captured process output. -/

/-- `maxAttempts` in `startDfxReplica`. -/
def pollMaxAttempts : Nat := 24

/-- The `setTimeout` delay between pings, in milliseconds. -/
def pollIntervalMs : Nat := 5000

/-- Events of the polling loop. -/
inductive PollEvent where
  | probe (ok : Bool)
  | sleep (ms : Nat)
deriving DecidableEq, Repr

/-- The error thrown when the polling ceiling is reached; it carries the
captured `dfx start` output. -/
def replicaStartFailMsg (startOutput : String) : String :=
  "DFX replica failed to start on port 4943 after 120 seconds. Output: " ++ startOutput

/-- The polling loop: `ping i` is the oracle outcome of the `dfx ping`
issued on attempt number `i`. -/
def pollReplica (ping : Nat → Bool) (startOutput : String) :
    Nat → Nat → List PollEvent × Except String Unit
  | _, 0 => ([], .error (replicaStartFailMsg startOutput))
  | attempts, fuel + 1 =>
    if ping attempts then ([.probe true], .ok ())
    else
      let rest := pollReplica ping startOutput (attempts + 1) fuel
      (.probe false :: .sleep pollIntervalMs :: rest.1, rest.2)

/-- The whole liveness poll of `startDfxReplica`. -/
def startReplicaPoll (ping : Nat → Bool) (startOutput : String) :
    List PollEvent × Except String Unit :=
  pollReplica ping startOutput 0 pollMaxAttempts

/-- Number of probes in a poll trace. -/
def probeCount (tr : List PollEvent) : Nat :=
  tr.countP (fun e => match e with | .probe _ => true | _ => false)

/-! ### Module registry (deployer.ts lines 504–516)

`getExistingCanisterId` runs `dfx canister id {name}`; a non-zero exit
(the toolchain's signal that the canister does not exist) is caught and
mapped to `null`, as is an empty stdout.  The registry itself is external
`dfx` state; it is modelled as an association list. -/

/-- External registry state: module name to issued identifier. -/
def Registry := List (String × String)

/-- Modelled from the spec: the Toolchain CLI's `dfx canister id` lookup
(an external collaborator, not part of src/) — exit code 0 with the
identifier on stdout when the name is bound, non-zero exit (an error)
when it is not. -/
def registryLookup (reg : Registry) (name : String) : Except String String :=
  match reg.lookup name with
  | some id => .ok id
  | none => .error ("Cannot find canister id.")

/-- `getExistingCanisterId` (lines 504–516): trim the stdout, return the
identifier if non-empty, and map every lookup error to `none`. -/
def getExistingCanisterId (reg : Registry) (name : String) : Option String :=
  match registryLookup reg name with
  | .ok stdout =>
    let canisterId := jsTrim stdout
    if canisterId = "" then none else some canisterId
  | .error _ => none

/-- Modelled from the spec: a successful Install records the identifier the
toolchain issued for the module name in the external registry. -/
def registryInstall (reg : Registry) (name newId : String) : Registry :=
  (name, newId) :: reg

/-! ### Recovery pipeline (deployer.ts lines 534–686)

`deployToReplica` preprocesses the artifact (import repair), runs
`moc --check`, and on failure branches on whether the diagnostic contains
`package "base" not defined`: if so it tries `fixDfxEnvironment`
(toolchain environment fix), re-checks, then simplifies, then writes the
hard-coded minimal canister; otherwise it asks the code-generation
service for a rewrite (which can itself throw, after its internal
retries), re-checks, and falls back to the minimal canister.  Every
subprocess/service outcome is an oracle field. -/

/-- The recovery tiers of the specification, in its enum order. -/
inductive RecoveryTier where
  | ImportRepair
  | ToolchainEnvironmentFix
  | ArtifactSimplification
  | MinimalFallbackArtifact
  | ExternalRewrite
deriving DecidableEq, Repr

/-- Events of one validation-and-recovery run. -/
inductive RecEvent where
  | validate (passed : Bool)
  | applyTier (t : RecoveryTier)
deriving DecidableEq, Repr

/-- The artifact the run ends with. -/
inductive Artifact where
  /-- The (preprocessed) artifact as staged. -/
  | original
  /-- `createSimplifiedMotokoCode` of the faulty artifact. -/
  | simplified
  /-- The hard-coded minimal passthrough canister. -/
  | minimalFallback
  /-- The code returned by the external rewrite service. -/
  | rewritten (code : String)
deriving DecidableEq, Repr

/-- Non-filesystem failures the recovery path can surface. -/
inductive RecErr where
  /-- `generateCanisterAndModifyCode` threw (the generator rethrows its
  parse/API error once its three attempts are exhausted). -/
  | codegenFailure
deriving DecidableEq, Repr

/-- The diagnostic signature recognized by the pipeline. -/
def basePkgSig : String := "package \"base\" not defined"

/-- The hard-coded minimal canister written as last resort. -/
def minimalCanister : String :=
  "\nactor \x7b\n  public func process(input : Text) : async Text \x7b\n    return \"Processed: \" # input;\n  \x7d;\n\x7d"

/-- Oracle inputs of one `deployToReplica` validation/recovery run. -/
structure RecEnv where
  /-- Does the initial `moc --check` of the preprocessed artifact pass? -/
  check0 : Bool
  /-- The raw diagnostic text of the failed check. -/
  diag : String
  /-- Does `fixDfxEnvironment()` report success? -/
  fixOk : Bool
  /-- `moc --check` of the unchanged artifact after the environment fix. -/
  checkAfterFix : Bool
  /-- `moc --check` of the simplified artifact. -/
  checkSimplified : Bool
  /-- Output of `generateCanisterAndModifyCode`; `none` models a throw. -/
  llmResult : Option String
  /-- `moc --check` of the rewritten artifact. -/
  checkLlm : Bool
deriving Repr

/-- The validation-and-recovery phase of `deployToReplica`
(lines 541–686), as a trace of tier applications and validator calls
plus the final artifact (or the propagated service failure). -/
def recoverRun (env : RecEnv) : List RecEvent × Except RecErr Artifact :=
  let pre : List RecEvent := [.applyTier .ImportRepair, .validate env.check0]
  if env.check0 then (pre, .ok .original)
  else if jsIncludes env.diag basePkgSig then
    let t2 := pre ++ [.applyTier .ToolchainEnvironmentFix]
    if env.fixOk then
      if env.checkAfterFix then (t2 ++ [.validate true], .ok .original)
      else
        let t3 := t2 ++ [.validate false, .applyTier .ArtifactSimplification,
          .validate env.checkSimplified]
        if env.checkSimplified then (t3, .ok .simplified)
        else (t3 ++ [.applyTier .MinimalFallbackArtifact], .ok .minimalFallback)
    else
      let t3 := t2 ++ [.applyTier .ArtifactSimplification, .validate env.checkSimplified]
      if env.checkSimplified then (t3, .ok .simplified)
      else (t3 ++ [.applyTier .MinimalFallbackArtifact], .ok .minimalFallback)
  else
    let t5 := pre ++ [.applyTier .ExternalRewrite]
    match env.llmResult with
    | none => (t5, .error .codegenFailure)
    | some code =>
      let t5v := t5 ++ [.validate env.checkLlm]
      if env.checkLlm then (t5v, .ok (.rewritten code))
      else (t5v ++ [.applyTier .MinimalFallbackArtifact], .ok .minimalFallback)

/-- The tiers attempted in a run, in order. -/
def tiersOf (tr : List RecEvent) : List RecoveryTier :=
  tr.filterMap (fun e => match e with | .applyTier t => some t | _ => none)

/-- Once a validation passes, nothing further happens in the run. -/
def stopsAfterPass : List RecEvent → Bool
  | [] => true
  | .validate true :: rest => rest.isEmpty
  | _ :: rest => stopsAfterPass rest

/-! ### Deployment orchestrator (deployer.ts lines 175–241 and 688–719)

After staging and starting the replica, `deployCanister` queries the
registry once; a pre-existing identifier selects the Upgrade branch
(`dfx canister install --mode=upgrade`, returning that identifier), and
absence selects the Install branch (`deployToReplica`: recovery, then
`dfx deploy`, then a fresh `dfx canister id` query whose trimmed output
is returned). -/

/-- Coarse events of one orchestration run. -/
inductive OrchEvent where
  | stageCopy
  | stageConfig
  | queryRegistry
  | upgradeInvoke
  | deployInvoke
deriving DecidableEq, Repr

/-- Failures of one orchestration run. -/
inductive DeployErr where
  | sourceMissing
  | replicaStartFailure
  | upgradeFailure
  | codegenFailure
  | deployInvocationFailure
  | idQueryFailure
deriving DecidableEq, Repr

/-- Oracle inputs of one `deployCanister` run. -/
structure OrchEnv where
  /-- `fs.existsSync(sourceFile)`. -/
  sourceExists : Bool
  /-- Does `startDfxReplica` succeed? -/
  replicaOk : Bool
  /-- Result of the initial `getExistingCanisterId` query. -/
  existingId : Option String
  /-- Does `dfx canister install --mode=upgrade` succeed? -/
  upgradeOk : Bool
  /-- Oracles of the validation/recovery phase of `deployToReplica`. -/
  recEnv : RecEnv
  /-- Exit code of `dfx deploy --verbose`. -/
  deployExit : Nat
  /-- Stdout of the final `dfx canister id` query; `none` models a throw. -/
  idQueryOut : Option String
deriving Repr

/-- One `deployCanister` run (lines 206–234 composed with
`deployToReplica`, lines 534–719). -/
def deployCanisterRun (env : OrchEnv) : List OrchEvent × Except DeployErr String :=
  if !env.sourceExists then ([], .error .sourceMissing)
  else
    let staged : List OrchEvent := [.stageCopy, .stageConfig]
    if !env.replicaOk then (staged, .error .replicaStartFailure)
    else
      let q := staged ++ [.queryRegistry]
      match env.existingId with
      | some id =>
        if env.upgradeOk then (q ++ [.upgradeInvoke], .ok id)
        else (q ++ [.upgradeInvoke], .error .upgradeFailure)
      | none =>
        match (recoverRun env.recEnv).2 with
        | .error _ => (q, .error .codegenFailure)
        | .ok _ =>
          let d := q ++ [.deployInvoke]
          if env.deployExit ≠ 0 then (d, .error .deployInvocationFailure)
          else
            match env.idQueryOut with
            | none => (d, .error .idQueryFailure)
            | some out => (d ++ [.queryRegistry], .ok (jsTrim out))

/-! ### Helper lemmas -/

theorem strDataAppend (a b : String) : (a ++ b).data = a.data ++ b.data := rfl

theorem containsSubOfInfixHelp (pat : List Char) (l : List Char) (h : pat <:+: l) :
    containsSub pat l = true := by
  induction l with
  | nil =>
    have : pat = [] := by simpa using h
    simp [containsSub, this]
  | cons c cs ih =>
    rw [ List.infix_cons_iff] at h
    rcases h with h | h
    · have : pat.isPrefixOf (c :: cs) = true := ( List.isPrefixOf_iff_prefix).mpr h
      simp [containsSub, this]
    · simp [containsSub, ih h]

theorem jsIncludesOfInfix (code pat : String) (h : pat.data <:+: code.data) :
    jsIncludes code pat = true :=
  containsSubOfInfixHelp pat.data code.data h

theorem memJoinNl (x : String) (l : List String) (hx : x ∈ l) :
    x.data <:+: (joinNl l).data := by
  induction l with
  | nil => cases hx
  | cons y ys ih =>
    rcases List.mem_cons.mp hx with rfl | hmem
    · cases ys with
      | nil => exact List.infix_refl _
      | cons z zs =>
        show x.data <:+: (x ++ "\n" ++ joinNl (z :: zs)).data
        rw [strDataAppend, strDataAppend, List.append_assoc]
        exact List.IsPrefix.isInfix (List.prefix_append _ _)
    · cases ys with
      | nil => cases hmem
      | cons z zs =>
        show x.data <:+: (y ++ "\n" ++ joinNl (z :: zs)).data
        rw [strDataAppend, strDataAppend]
        exact List.IsInfix.trans (ih hmem) (List.IsSuffix.isInfix (List.suffix_append _ _))

theorem importLineStartsWith (m : String) :
    ("import " ++ m).data <+: (importLine m).data := by
  show ("import " ++ m).data <+: ("import " ++ m ++ " \"mo:base/" ++ m ++ "\";").data
  simp only [strDataAppend, List.append_assoc]
  rw [← List.append_assoc]
  exact List.prefix_append _ _

theorem joinedInPreprocess (code : String) (h : (importStatements code).isEmpty = false) :
    (joinNl (importStatements code)).data <:+: (preprocessMotokoCode code).data := by
  simp only [preprocessMotokoCode, h, Bool.false_eq_true, if_false]
  split
  · split
    · simp only [strDataAppend, List.append_assoc]
      exact List.IsInfix.trans (List.IsPrefix.isInfix (List.prefix_append _ _))
        (List.IsSuffix.isInfix (List.suffix_append _ _))
    · simp only [strDataAppend, List.append_assoc]
      exact List.IsPrefix.isInfix (List.prefix_append _ _)
  · simp only [strDataAppend, List.append_assoc]
    exact List.IsPrefix.isInfix (List.prefix_append _ _)

theorem preprocessKeepsImportMark (code m : String) (h : m ∈ insertedNames code) :
    jsIncludes (preprocessMotokoCode code) ("import " ++ m) = true := by
  have h1 : importLine m ∈ importStatements code := List.mem_map_of_mem importLine h
  have hne : (importStatements code).isEmpty = false := by
    cases hre : importStatements code with
    | nil => rw [hre] at h1; cases h1
    | cons a l => simp
  have h2 := memJoinNl (importLine m) (importStatements code) h1
  have h3 := joinedInPreprocess code hne
  exact jsIncludesOfInfix _ _
    (List.IsInfix.trans (List.IsInfix.trans (List.IsPrefix.isInfix (importLineStartsWith m)) h2) h3)

theorem pollReplicaAllFail (ping : Nat → Bool) (out : String) :
    ∀ fuel a, (∀ i, i < fuel → ping (a + i) = false) →
      (pollReplica ping out a fuel).2 = .error (replicaStartFailMsg out) ∧
      probeCount (pollReplica ping out a fuel).1 = fuel := by
  intro fuel
  induction fuel with
  | zero => intro a _; exact ⟨rfl, rfl⟩
  | succ n ih =>
    intro a h
    have h0 : ping a = false := by simpa using h 0 (Nat.succ_pos n)
    have hrest := ih (a + 1) (fun i hi => by
      have := h (i + 1) (Nat.succ_lt_succ hi)
      simpa [Nat.add_assoc, Nat.add_comm 1 i] using this)
    simp only [pollReplica, h0, Bool.false_eq_true, if_false]
    refine ⟨hrest.1, ?_⟩
    simp [probeCount, List.countP_cons] at hrest ⊢
    omega

theorem pollReplicaFirstSuccess (ping : Nat → Bool) (out : String) :
    ∀ fuel a j, j < fuel → ping (a + j) = true → (∀ k, k < j → ping (a + k) = false) →
      (pollReplica ping out a fuel).2 = .ok () ∧
      probeCount (pollReplica ping out a fuel).1 = j + 1 := by
  intro fuel
  induction fuel with
  | zero => intro a j hj; omega
  | succ n ih =>
    intro a j hj hok hfail
    cases j with
    | zero =>
      have h0 : ping a = true := by simpa using hok
      simp [pollReplica, h0, probeCount]
    | succ j' =>
      have h0 : ping a = false := by simpa using hfail 0 (Nat.succ_pos j')
      have hrest := ih (a + 1) j' (Nat.lt_of_succ_lt_succ hj)
        (by simpa [Nat.add_assoc, Nat.add_comm 1 j'] using hok)
        (fun k hk => by
          have := hfail (k + 1) (Nat.succ_lt_succ hk)
          simpa [Nat.add_assoc, Nat.add_comm 1 k] using this)
      simp only [pollReplica, h0, Bool.false_eq_true, if_false]
      refine ⟨hrest.1, ?_⟩
      simp [probeCount, List.countP_cons] at hrest ⊢
      omega

theorem pollReplicaSleepFixed (ping : Nat → Bool) (out : String) :
    ∀ fuel a ms, PollEvent.sleep ms ∈ (pollReplica ping out a fuel).1 → ms = pollIntervalMs := by
  intro fuel
  induction fuel with
  | zero => intro a ms h; cases h
  | succ n ih =>
    intro a ms h
    by_cases h0 : ping a = true
    · simp [pollReplica, h0] at h
    · simp only [pollReplica, h0, Bool.false_eq_true, if_false] at h
      rcases List.mem_cons.mp h with h' | h'
      · cases h'
      · rcases List.mem_cons.mp h' with h'' | h''
        · simpa using h''
        · exact ih (a + 1) ms h''

/-- Is an `Except` value a success? -/
def exceptOk {ε α : Type} : Except ε α → Bool
  | .ok _ => true
  | .error _ => false

/-- Is the first tier list a subsequence of the second (order-respecting)? -/
def isSubchain : List RecoveryTier → List RecoveryTier → Bool
  | [], _ => true
  | _ :: _, [] => false
  | a :: as, b :: bs => if a = b then isSubchain as bs else isSubchain (a :: as) bs

/-- Every application of tier `t` in the trace is immediately followed by a
validator invocation. -/
def immediatelyValidated (t : RecoveryTier) : List RecEvent → Bool
  | [] => true
  | .applyTier u :: rest =>
    (if u = t then
      (match rest with
       | .validate _ :: _ => true
       | _ => false)
     else true) && immediatelyValidated t rest
  | _ :: rest => immediatelyValidated t rest

/-! ### Claim theorems -/

/-- C8: staging is idempotent — for every deployment request, staging twice
with the same module name and source artifact yields byte-identical staged
files (the copied module source and the generated `dfx.json`), independent
of any prior state of the staged tree (overwrite semantics, no appended or
duplicated entries). -/
theorem staging_idempotent (fs fs' : StagedFiles) (name source : String) :
    stageProject (stageProject fs name source) name source = stageProject fs name source ∧
    stageProject fs name source = stageProject fs' name source ∧
    (stageProject fs name source).mainMo = some source ∧
    (stageProject fs name source).dfxJson = some (dfxConfigContent name) :=
  ⟨rfl, rfl, rfl, rfl⟩

/-- C9: the registry lookup returns `none` (not an error) for a module name
never before deployed — `getExistingCanisterId` catches the toolchain's
non-zero exit and maps it to `null` — and after a successful Install of
that name the lookup returns the previously issued identifier. -/
theorem registry_absence_is_none (reg : Registry) (name newId : String)
    (hfresh : reg.lookup name = none) (hid : jsTrim newId = newId) (hne : newId ≠ "") :
    getExistingCanisterId reg name = none ∧
    getExistingCanisterId (registryInstall reg name newId) name = some newId := by
  constructor
  · simp [getExistingCanisterId, registryLookup, hfresh]
  · simp [getExistingCanisterId, registryLookup, registryInstall, List.lookup, hid, hne]

/-- C9 witness at a concrete fresh registry. -/
theorem registry_absence_is_none_witness :
    getExistingCanisterId [] ("Echo") = none ∧
    getExistingCanisterId (registryInstall [] ("Echo") ("rrkah-fqaaa")) ("Echo") =
      some ("rrkah-fqaaa") :=
  registry_absence_is_none [] ("Echo") ("rrkah-fqaaa") rfl (by decide) (by decide)

/-- C6: for every run in which the bind probe reports the port free, the
port-freeing block is a no-op: the trace holds the probe alone — no
process lookup and no kill. -/
theorem port_free_noop (env : PortEnv) (h : env.portFree = true) :
    ensurePortFree env = ([.probe], .ok ()) := by
  rcases env with ⟨pf, lo, ko⟩
  simp only at h
  subst h
  rfl

/-- C6 witness at a concrete environment. -/
theorem port_free_noop_witness :
    ensurePortFree ⟨true, some ("77"), true⟩ = ([.probe], .ok ()) :=
  port_free_noop ⟨true, some ("77"), true⟩ rfl

/-- C5 counterexample: with the port busy, an owner pid found and the kill
succeeding, the block proceeds with `Except.ok` after the settle delay but
the trace holds exactly one probe — the port is never re-probed before
proceeding, contradicting the claimed terminate-and-re-probe cycle. -/
theorem port_busy_no_reprobe_cex :
    ensurePortFree ⟨false, some ("123"), true⟩ =
      ([.probe, .lookupPid, .killPid ("123"), .settleDelay 2000], .ok ()) ∧
    (ensurePortFree ⟨false, some ("123"), true⟩).1.count PortAction.probe = 1 := by
  constructor
  · rfl
  · rfl

/-- C5 amended: when the bind probe reports the port in use, the block
looks up the owning pid, kills it and waits a fixed 2-second settle delay,
then proceeds WITHOUT re-probing (every run holds exactly one probe); it
fails exactly when the pid lookup command errors or the kill command
errors. -/
theorem port_busy_kill_no_reprobe (env : PortEnv) (h : env.portFree = false) :
    ((ensurePortFree env).2 = .error .portBusy ↔
      (env.lsofOut = none ∨
        ∃ s, env.lsofOut = some s ∧ jsTrim s ≠ "" ∧ env.killOk = false)) ∧
    (ensurePortFree env).1.count PortAction.probe = 1 ∧
    (∀ s, env.lsofOut = some s → jsTrim s ≠ "" → env.killOk = true →
      ensurePortFree env =
        ([.probe, .lookupPid, .killPid (jsTrim s), .settleDelay 2000], .ok ())) ∧
    (env.lsofOut = none →
      ensurePortFree env = ([.probe, .lookupPid], .error .portBusy)) := by
  rcases env with ⟨pf, lo, ko⟩
  simp only at h
  subst h
  rcases lo with _ | s
  · simp [ensurePortFree]
  · by_cases hs : jsTrim s = ""
    · cases ko <;> simp [ensurePortFree, hs]
    · cases ko <;> simp [ensurePortFree, hs]

/-- C5 amended witness: lookup failure propagates as the port-busy error. -/
theorem port_busy_kill_no_reprobe_witness :
    ensurePortFree ⟨false, none, true⟩ = ([.probe, .lookupPid], .error .portBusy) :=
  (port_busy_kill_no_reprobe ⟨false, none, true⟩ rfl).2.2.2 rfl

/-- C4: the liveness poll is bounded — 24 attempts at a fixed 5000 ms
interval (120 s ceiling); when every probe fails the poll ends in the
start-failure error carrying the captured process output after exactly 24
probes, and when probe `j` is the first to succeed the poll returns
success after exactly `j + 1` probes (no further probes). -/
theorem replica_poll_bounded (ping : Nat → Bool) (out : String) :
    pollMaxAttempts = 24 ∧ pollIntervalMs = 5000 ∧
    ((∀ i, i < 24 → ping i = false) →
      (startReplicaPoll ping out).2 = .error (replicaStartFailMsg out) ∧
      probeCount (startReplicaPoll ping out).1 = 24) ∧
    (∀ j, j < 24 → ping j = true → (∀ k, k < j → ping k = false) →
      (startReplicaPoll ping out).2 = .ok () ∧
      probeCount (startReplicaPoll ping out).1 = j + 1) ∧
    (∀ ms, PollEvent.sleep ms ∈ (startReplicaPoll ping out).1 → ms = 5000) := by
  refine ⟨rfl, rfl, ?_, ?_, ?_⟩
  · intro hall
    exact pollReplicaAllFail ping out 24 0 (fun i hi => by simpa using hall i hi)
  · intro j hj hok hfail
    exact pollReplicaFirstSuccess ping out 24 0 j hj (by simpa using hok)
      (fun k hk => by simpa using hfail k hk)
  · intro ms hms
    exact pollReplicaSleepFixed ping out pollMaxAttempts 0 ms hms

/-- C4 witness: a run whose probes all fail ends in the failure carrying
the captured output, and a run whose first probe succeeds ends after one
probe. -/
theorem replica_poll_bounded_witness :
    (startReplicaPoll (fun _ => false) ("no route")).2 =
      .error (replicaStartFailMsg ("no route")) ∧
    probeCount (startReplicaPoll (fun _ => true) ("ok")).1 = 1 :=
  ⟨((replica_poll_bounded (fun _ => false) ("no route")).2.2.1 (fun i _ => rfl)).1,
   ((replica_poll_bounded (fun _ => true) ("ok")).2.2.2.1 0 (by omega) rfl
      (fun k hk => absurd hk (Nat.not_lt_zero k))).2⟩

/-- C1 counterexample: when the diagnostic does not contain the
missing-base signature and the external rewrite call itself throws (the
generator rethrows after its retries), the recovery path surfaces a
non-filesystem failure and no fallback artifact is produced. -/
theorem recover_unrecoverable_cex :
    (recoverRun ⟨false, "unbound variable x", false, false, false, none, false⟩).2 =
      .error .codegenFailure ∧
    RecoveryTier.MinimalFallbackArtifact ∉
      tiersOf (recoverRun ⟨false, "unbound variable x", false, false, false, none, false⟩).1 := by
  constructor
  · rfl
  · decide

/-- C1 amended: except for runs in which the diagnostic lacks the
missing-base signature AND the external rewrite call itself throws, the
recovery cascade always ends with a deployable artifact (filesystem errors
are outside the model); whenever the minimal-fallback tier is reached it is
terminal and the run succeeds with the hard-coded fallback artifact. -/
theorem recover_reaches_artifact (env : RecEnv)
    (h : env.check0 = true ∨ jsIncludes env.diag basePkgSig = true ∨ env.llmResult ≠ none) :
    exceptOk (recoverRun env).2 = true ∧
    (RecoveryTier.MinimalFallbackArtifact ∈ tiersOf (recoverRun env).1 →
      (recoverRun env).2 = .ok .minimalFallback) := by
  rcases env with ⟨c0, diag, fx, caf, cs, lr, cl⟩
  cases hb : jsIncludes diag basePkgSig <;> cases c0 <;> cases fx <;> cases caf <;>
    cases cs <;> cases cl <;> rcases lr with _ | code <;>
      simp_all [recoverRun, tiersOf, exceptOk]

/-- C1 amended witness: a recognized missing-base diagnostic always yields
an artifact. -/
theorem recover_reaches_artifact_witness :
    exceptOk (recoverRun ⟨false, basePkgSig, false, false, false, none, false⟩).2 = true :=
  (recover_reaches_artifact ⟨false, basePkgSig, false, false, false, none, false⟩
    (Or.inr (Or.inl (by decide)))).1

/-- C2: within a failed-validation run, the toolchain-environment-fix tier
is attempted iff the raw diagnostic contains `package "base" not defined`;
for any other diagnostic the pipeline goes directly from import repair to
the external rewrite, and when the rewrite is produced but fails
re-validation the run ends with the minimal fallback artifact. -/
theorem recovery_tier2_skip_rule (env : RecEnv) (h : env.check0 = false) :
    ((RecEvent.applyTier .ToolchainEnvironmentFix ∈ (recoverRun env).1) ↔
      jsIncludes env.diag basePkgSig = true) ∧
    (jsIncludes env.diag basePkgSig = false →
      (tiersOf (recoverRun env).1 = [.ImportRepair, .ExternalRewrite] ∨
       tiersOf (recoverRun env).1 =
         [.ImportRepair, .ExternalRewrite, .MinimalFallbackArtifact])) ∧
    (∀ code, jsIncludes env.diag basePkgSig = false → env.llmResult = some code →
      env.checkLlm = false → (recoverRun env).2 = .ok .minimalFallback) := by
  rcases env with ⟨c0, diag, fx, caf, cs, lr, cl⟩
  simp only at h
  subst h
  cases hb : jsIncludes diag basePkgSig <;> cases fx <;> cases caf <;>
    cases cs <;> cases cl <;> rcases lr with _ | code <;>
      simp_all [recoverRun, tiersOf]

/-- C2 witness: with the missing-base diagnostic the environment-fix tier
is in the trace; with another diagnostic it is not. -/
theorem recovery_tier2_skip_rule_witness :
    RecEvent.applyTier .ToolchainEnvironmentFix ∈
      (recoverRun ⟨false, basePkgSig, true, true, true, none, true⟩).1 ∧
    (recoverRun ⟨false, "type mismatch", true, true, true, some ("actor"), false⟩).2 =
      .ok .minimalFallback :=
  ⟨(recovery_tier2_skip_rule ⟨false, basePkgSig, true, true, true, none, true⟩ rfl).1.mpr
      (by decide),
   (recovery_tier2_skip_rule ⟨false, "type mismatch", true, true, true, some ("actor"), false⟩
      rfl).2.2 ("actor") (by decide) rfl rfl⟩

/-- C3 counterexample: on an unrecognized diagnostic whose rewrite fails
re-validation, the run applies the external-rewrite tier (enum position 5)
before the minimal-fallback tier (enum position 4) — not the enum order —
and the minimal-fallback tier is the final event of the trace, applied
without any subsequent validator invocation. -/
theorem recovery_tier_order_cex :
    (recoverRun ⟨false, "unexpected token", false, false, false, some ("x"), false⟩).1 =
      [.applyTier .ImportRepair, .validate false, .applyTier .ExternalRewrite,
       .validate false, .applyTier .MinimalFallbackArtifact] ∧
    (recoverRun ⟨false, "unexpected token", false, false, false, some ("x"), false⟩).1.getLast? =
      some (.applyTier .MinimalFallbackArtifact) ∧
    (recoverRun ⟨false, "unexpected token", false, false, false, some ("x"), false⟩).2 =
      .ok .minimalFallback := by
  refine ⟨rfl, ?_, rfl⟩
  decide

/-- C3 amended: tiers are attempted without repetition, in a fixed
per-branch order (the enum order 1,2,3,4 on recognized missing-base
diagnostics; 1,5,4 otherwise); the run stops as soon as a validation
passes; the validator is re-invoked immediately after import repair and
artifact simplification, after the environment fix whenever the fix
reports success, and after the external rewrite whenever the run
completes — but the minimal fallback, when reached, is terminal and is
written without re-validation. -/
theorem recovery_tier_discipline (env : RecEnv) :
    (tiersOf (recoverRun env).1).Nodup ∧
    (isSubchain (tiersOf (recoverRun env).1)
        [.ImportRepair, .ToolchainEnvironmentFix, .ArtifactSimplification,
         .MinimalFallbackArtifact] = true ∨
     isSubchain (tiersOf (recoverRun env).1)
        [.ImportRepair, .ExternalRewrite, .MinimalFallbackArtifact] = true) ∧
    stopsAfterPass (recoverRun env).1 = true ∧
    immediatelyValidated .ImportRepair (recoverRun env).1 = true ∧
    immediatelyValidated .ArtifactSimplification (recoverRun env).1 = true ∧
    (env.fixOk = true →
      immediatelyValidated .ToolchainEnvironmentFix (recoverRun env).1 = true) ∧
    (exceptOk (recoverRun env).2 = true →
      immediatelyValidated .ExternalRewrite (recoverRun env).1 = true) ∧
    (RecoveryTier.MinimalFallbackArtifact ∈ tiersOf (recoverRun env).1 →
      (recoverRun env).1.getLast? = some (.applyTier .MinimalFallbackArtifact)) := by
  rcases env with ⟨c0, diag, fx, caf, cs, lr, cl⟩
  cases hb : jsIncludes diag basePkgSig <;> cases c0 <;> cases fx <;> cases caf <;>
    cases cs <;> cases cl <;> rcases lr with _ | code <;>
      simp_all [recoverRun, tiersOf, exceptOk, stopsAfterPass, immediatelyValidated,
        isSubchain]

/-- C3 amended witness: concrete run on the missing-base path. -/
theorem recovery_tier_discipline_witness :
    immediatelyValidated .ToolchainEnvironmentFix
      (recoverRun ⟨false, basePkgSig, true, false, false, none, false⟩).1 = true :=
  (recovery_tier_discipline ⟨false, basePkgSig, true, false, false, none, false⟩).2.2.2.2.2.1
    rfl

/-- C7: Install and Upgrade are mutually exclusive branches selected by
the registry lookup — with a pre-existing identifier the run performs the
upgrade invocation only, stages nothing further, and returns that
identifier after the single initial registry query; with no identifier the
run performs the full deploy invocation and returns the trimmed output of
a second, authoritative registry query. -/
theorem install_upgrade_exclusive (env : OrchEnv)
    (hsrc : env.sourceExists = true) (hrep : env.replicaOk = true) :
    (∀ id, env.existingId = some id → env.upgradeOk = true →
      deployCanisterRun env =
        ([.stageCopy, .stageConfig, .queryRegistry, .upgradeInvoke], .ok id)) ∧
    (∀ out, env.existingId = none → exceptOk (recoverRun env.recEnv).2 = true →
      env.deployExit = 0 → env.idQueryOut = some out →
      deployCanisterRun env =
        ([.stageCopy, .stageConfig, .queryRegistry, .deployInvoke, .queryRegistry],
          .ok (jsTrim out))) := by
  rcases env with ⟨se, ro, ei, uo, renv, dx, iq⟩
  simp only at hsrc hrep
  subst hsrc
  subst hrep
  constructor
  · intro id hei huo
    simp only at hei huo
    subst hei
    subst huo
    rfl
  · intro out hei hrec hdx hiq
    simp only at hei hdx hiq
    subst hei
    subst hdx
    subst hiq
    cases hr : (recoverRun renv).2 with
    | error e => rw [hr] at hrec; cases hrec
    | ok a => simp [deployCanisterRun, hr]

/-- C7 witness: concrete upgrade and install runs. -/
theorem install_upgrade_exclusive_witness :
    deployCanisterRun
        ⟨true, true, some ("abc-cai"), true, ⟨true, "", true, true, true, none, true⟩, 0,
          none⟩ =
      ([.stageCopy, .stageConfig, .queryRegistry, .upgradeInvoke], .ok ("abc-cai")) ∧
    deployCanisterRun
        ⟨true, true, none, true, ⟨true, "", true, true, true, none, true⟩, 0,
          some ("new-cai")⟩ =
      ([.stageCopy, .stageConfig, .queryRegistry, .deployInvoke, .queryRegistry],
        .ok (jsTrim ("new-cai"))) :=
  ⟨(install_upgrade_exclusive _ rfl rfl).1 ("abc-cai") rfl rfl,
   (install_upgrade_exclusive _ rfl rfl).2 ("new-cai") rfl rfl rfl rfl⟩

/-- C10 counterexample: `preprocessMotokoCode` is not idempotent.  On
`actor Nat\n= Text.size(t)` the first pass inserts only `import Text`
(the `Nat` occurrence is followed across the newline by `=`, so the
`(?!\s*=)` lookahead rejects it); the inserted line now sits between
`Nat` and `=`, so a second pass inserts `import Nat` as well. -/
theorem preprocess_not_idempotent_cex :
    preprocessMotokoCode (preprocessMotokoCode ("actor Nat\n= Text.size(t)")) ≠
      preprocessMotokoCode ("actor Nat\n= Text.size(t)") := by decide

/-- C10 amended: the suppression mechanism the claim cites does hold — an
inserted import statement for a module name makes any later pass skip that
name (its `code.includes('import ' + name)` guard), so no pass ever
re-inserts an import it has produced — but the function is not idempotent
in general, because an inserted line can change the multi-line `(?!\s*=)`
lookahead context of a different module name and let a second pass insert
a further import. -/
theorem preprocess_no_reinsertion (code m : String) (h : m ∈ insertedNames code) :
    m ∉ insertedNames (preprocessMotokoCode code) := by
  intro hmem
  have hcond := (List.mem_filter.mp hmem).2
  rw [preprocessKeepsImportMark code m h] at hcond
  simp at hcond

/-- C10 amended witness: `Text`, inserted on the first pass, is not
inserted again on the second. -/
theorem preprocess_no_reinsertion_witness :
    ("Text" : String) ∈ insertedNames ("actor Nat\n= Text.size(t)") ∧
    ("Text" : String) ∉ insertedNames (preprocessMotokoCode ("actor Nat\n= Text.size(t)")) :=
  ⟨by decide, preprocess_no_reinsertion ("actor Nat\n= Text.size(t)") ("Text") (by decide)⟩

end ICPilot
